import Mathlib

/-!
Shallow embedding of the security-critical core of `linux_gcloud_connector`
(`src/native/src/validation.rs`, `src/native/src/sftp.rs`,
`src/native/src/tunnel.rs`), together with proofs of the specification
claims about it.  Strings are modelled as `List Char`; Rust `Result` maps
to `Except`; the ambient OS (filesystem canonicalization, process spawning,
TCP probes) is modelled by explicit oracle parameters.
-/

deriving instance DecidableEq for Except

/-! ### Identifier Validator — `src/native/src/validation.rs` -/

/-- The distinct failure cases of the four validators (each is a distinct
`anyhow!` message in the source: empty input, length overflow, regex
mismatch). -/
inductive ValidationError where
  | empty
  | tooLong
  | invalidFormat
deriving DecidableEq

/-- Character class `[a-z]`. -/
def isLowerAZ (c : Char) : Bool := decide ('a' ≤ c) && decide (c ≤ 'z')

/-- Character class `[0-9]`. -/
def isDigit09 (c : Char) : Bool := decide ('0' ≤ c) && decide (c ≤ '9')

/-- Character class `[a-z0-9]`. -/
def isAlnumLower (c : Char) : Bool := isLowerAZ c || isDigit09 c

/-- Character class `[a-z0-9-]` (used by the project-id, instance-name and
zone patterns). -/
def isIdentChar (c : Char) : Bool := isLowerAZ c || isDigit09 c || c = '-'

/-- Character class `[a-z0-9_-]` (username body). -/
def isUsernameChar (c : Char) : Bool :=
  isLowerAZ c || isDigit09 c || c = '_' || c = '-'

/-- Character class `[a-z_]` (username head). -/
def isUsernameStart (c : Char) : Bool := isLowerAZ c || c = '_'

/-- Last element of a list satisfies `p` (and the list is nonempty). -/
def lastSatisfies (p : Char → Bool) (l : List Char) : Bool :=
  match l.getLast? with
  | some c => p c
  | none => false

/-- Denotation of `PROJECT_ID_REGEX = ^[a-z]([a-z0-9-]{4,28}[a-z0-9])?$`.
Since `[a-z0-9]` is a subset of `[a-z0-9-]`, the optional group matches
exactly the strings of length 5–29 over `[a-z0-9-]` whose last character is
in `[a-z0-9]`. -/
def projectIdRegexMatch : List Char → Bool
  | [] => false
  | c :: rest =>
    isLowerAZ c &&
      (rest.isEmpty ||
        (decide (5 ≤ rest.length) && decide (rest.length ≤ 29) &&
          rest.all isIdentChar && lastSatisfies isAlnumLower rest))

/-- Denotation of `INSTANCE_NAME_REGEX = ^[a-z]([a-z0-9-]{0,61}[a-z0-9])?$`:
head in `[a-z]`, then either nothing or 1–62 characters over `[a-z0-9-]`
ending in `[a-z0-9]`. -/
def instanceNameRegexMatch : List Char → Bool
  | [] => false
  | c :: rest =>
    isLowerAZ c &&
      (rest.isEmpty ||
        (decide (1 ≤ rest.length) && decide (rest.length ≤ 62) &&
          rest.all isIdentChar && lastSatisfies isAlnumLower rest))

/-- Denotation of `USERNAME_REGEX = ^[a-z_][a-z0-9_-]{0,31}$`. -/
def usernameRegexMatch : List Char → Bool
  | [] => false
  | c :: rest =>
    isUsernameStart c && decide (rest.length ≤ 31) && rest.all isUsernameChar

/-- Matches `[a-z]$` — exactly one lowercase letter remains. -/
def zoneTailZ : List Char → Bool
  | [z] => isLowerAZ z
  | _ => false

/-- Matches `[0-9]*-[a-z]$`.  Maximal munch equals regex semantics because
`[0-9]` and the follow character `-` are disjoint. -/
def zoneNumRest : List Char → Bool
  | [] => false
  | c :: rest => if isDigit09 c then zoneNumRest rest else c = '-' && zoneTailZ rest

/-- Matches `[a-z]*[0-9]+-[a-z]$`.  The lowercase run is maximal because
`[a-z]` and `[0-9]` are disjoint. -/
def zoneLocRest : List Char → Bool
  | [] => false
  | c :: rest =>
    if isLowerAZ c then zoneLocRest rest else isDigit09 c && zoneNumRest rest

/-- Matches `[a-z]*-[a-z]+[0-9]+-[a-z]$`. -/
def zoneRegionRest : List Char → Bool
  | [] => false
  | c :: rest =>
    if isLowerAZ c then zoneRegionRest rest
    else
      c = '-' &&
        (match rest with
         | [] => false
         | d :: rest2 => isLowerAZ d && zoneLocRest rest2)

/-- Denotation of `ZONE_REGEX = ^[a-z]+-[a-z]+[0-9]+-[a-z]$` as a
deterministic matcher; greediness is exact because the three character
classes and `-` are pairwise disjoint. -/
def zoneRegexMatch : List Char → Bool
  | [] => false
  | c :: rest => isLowerAZ c && zoneRegionRest rest

/-- `validate_project_id` (validation.rs lines 47–61): empty check, then the
regex; there is no separate length check. -/
def validate_project_id (s : List Char) : Except ValidationError Unit :=
  if s.isEmpty then .error .empty
  else if projectIdRegexMatch s then .ok () else .error .invalidFormat

/-- `validate_zone` (validation.rs lines 75–88). -/
def validate_zone (s : List Char) : Except ValidationError Unit :=
  if s.isEmpty then .error .empty
  else if zoneRegexMatch s then .ok () else .error .invalidFormat

/-- `validate_instance_name` (validation.rs lines 105–127): empty check,
explicit length-above-63 check, then the regex.  (Rust `str::len` is a byte
count; it coincides with the character count on the ASCII-only strings the
grammar can accept, and both models reject non-ASCII input.) -/
def validate_instance_name (s : List Char) : Except ValidationError Unit :=
  if s.isEmpty then .error .empty
  else if decide (s.length > 63) then .error .tooLong
  else if instanceNameRegexMatch s then .ok () else .error .invalidFormat

/-- `validate_username` (validation.rs lines 145–167): empty check, explicit
length-above-32 check, then the regex. -/
def validate_username (s : List Char) : Except ValidationError Unit :=
  if s.isEmpty then .error .empty
  else if decide (s.length > 32) then .error .tooLong
  else if usernameRegexMatch s then .ok () else .error .invalidFormat

/-- The shell metacharacters named by the spec: `; | & ` $ ( )` and
whitespace (space, tab, newline, carriage return).  `Char.ofNat 96` is the
backtick. -/
def shellMetas : List Char :=
  [';', '|', '&', Char.ofNat 96, '$', '(', ')', ' ',
   Char.ofNat 9, Char.ofNat 10, Char.ofNat 13]

/-- `c` is one of the shell metacharacters / whitespace characters. -/
def isShellMeta (c : Char) : Bool := decide (c ∈ shellMetas)

/-! ### Path Guard — `src/native/src/sftp.rs` -/

/-- One path segment (the text between separators). -/
abbrev Seg := List Char

/-- A Unix path as Rust's `std::path` sees it: an absolute-or-relative flag
(`Path::is_absolute` is "starts with `/`" on Linux) plus the list of normal
segments.  Rust's `Path::components()` already folds repeated separators,
drops a trailing separator and normalizes `.` segments away (a leading
`CurDir` survives in Rust, but the only consumers here — the `ParentDir`
scan and the normalization fold, which skips `CurDir` — treat it exactly
like an elided segment), so the model drops empty and `.` segments at
parse. `..` segments are kept: they are `Component::ParentDir`. -/
structure RustPath where
  absolute : Bool
  segs : List Seg
deriving DecidableEq

/-- Splits a character list on `/`, accumulating the current (reversed)
segment; empty segments are dropped. -/
def splitSegsAux (cur : Seg) : List Char → List Seg
  | [] => if cur.isEmpty then [] else [cur.reverse]
  | c :: rest =>
    if c = '/' then
      if cur.isEmpty then splitSegsAux [] rest
      else cur.reverse :: splitSegsAux [] rest
    else splitSegsAux (c :: cur) rest

/-- All `/`-separated nonempty segments of a path string. -/
def splitSegs (s : List Char) : List Seg := splitSegsAux [] s

/-- Parse a path string into the component view (dropping `.` segments, see
`RustPath`). -/
def parsePath (s : List Char) : RustPath :=
  ⟨decide (s.head? = some '/'), (splitSegs s).filter (fun seg => seg ≠ ['.'])⟩

/-- `path.components().any(|c| matches!(c, Component::ParentDir))` — the
raw-path traversal scan of sftp.rs lines 93 / 173. -/
def hasParentSeg (p : RustPath) : Bool := p.segs.contains ['.', '.']

/-- `PathBuf::join` for the shapes the source uses: joining a relative path
appends its segments; joining an absolute path replaces the base. -/
def joinPath (base p : RustPath) : RustPath :=
  if p.absolute then p else ⟨base.absolute, base.segs ++ p.segs⟩

/-- The component fold of sftp.rs lines 113–134: `ParentDir` pops the
accumulator (`PathBuf::pop`, a no-op on an empty accumulator), `CurDir` is
skipped, `Normal` is pushed; a leading `RootDir` (modelled by the
`absolute` flag) makes the result absolute. -/
def canonSegs (acc : List Seg) : List Seg → List Seg
  | [] => acc
  | seg :: rest =>
    if seg = ['.', '.'] then canonSegs acc.dropLast rest
    else if seg = ['.'] then canonSegs acc rest
    else canonSegs (acc ++ [seg]) rest

/-- Normalization of a full path by the component fold. -/
def normalizePath (p : RustPath) : RustPath := ⟨p.absolute, canonSegs [] p.segs⟩

/-- `Path::starts_with`: component-wise prefix (equal paths included). -/
def startsWithPath (p base : RustPath) : Bool :=
  p.absolute = base.absolute && base.segs.isPrefixOf p.segs

/-- The failure cases of the two path validators (each a distinct `anyhow!`
message in the source). -/
inductive PathError where
  | invalidUsername (e : ValidationError)
  | traversal
  | outsideRoot
  | noHomeDir
  | notFound
deriving DecidableEq

/-- The characters of `"/home/"`. -/
def homeSlash : List Char := ['/', 'h', 'o', 'm', 'e', '/']

/-- `PathBuf::from(format!("/home/{}", username))` — the remote confinement
root (sftp.rs line 103). -/
def homeBase (username : List Char) : RustPath := parsePath (homeSlash ++ username)

/-- `validate_and_normalize_path` (sftp.rs lines 86–158): validate the
username, reject any `..` component of the raw path, resolve relative paths
against `/home/{username}`, normalize by the component fold, and require
the result to start with the confinement root. -/
def validate_and_normalize_path (remote_path username : List Char) :
    Except PathError RustPath :=
  match validate_username username with
  | .error e => .error (.invalidUsername e)
  | .ok _ =>
    let path := parsePath remote_path
    if hasParentSeg path then .error .traversal
    else
      let allowed_base := homeBase username
      let full_path := if path.absolute then path else joinPath allowed_base path
      let normalized := normalizePath full_path
      if ! startsWithPath normalized allowed_base then .error .outsideRoot
      else .ok normalized

/-- The ambient OS state `validate_local_path` consults: `dirs::home_dir()`
and filesystem canonicalization (`Path::canonicalize`, which fails on
nonexistent paths). -/
structure LocalFs where
  home : Option RustPath
  canonicalize : RustPath → Option RustPath

/-- `Path::parent`: `None` for the root or the empty path, otherwise drop
the last segment. -/
def parentPath (p : RustPath) : Option RustPath :=
  match p.segs with
  | [] => none
  | _ :: _ => some ⟨p.absolute, p.segs.dropLast⟩

/-- `Path::file_name` for `..`-free paths: the last segment. -/
def fileNameSeg (p : RustPath) : Option Seg := p.segs.getLast?

/-- The canonicalize-with-fallback of sftp.rs lines 193–202: canonicalize
the full path; if that fails, canonicalize the parent and re-append the
file name. -/
def canonOrParent (fs : LocalFs) (full : RustPath) : Option RustPath :=
  match fs.canonicalize full with
  | some n => some n
  | none =>
    match parentPath full, fileNameSeg full with
    | some par, some name =>
      (fs.canonicalize par).map (fun p => ⟨p.absolute, p.segs ++ [name]⟩)
    | _, _ => none

/-- `validate_local_path` (sftp.rs lines 169–224): reject any `..`
component, resolve relative paths against the caller's home directory,
canonicalize (with the parent-directory fallback), and require the result
to start with the home directory. -/
def validate_local_path (fs : LocalFs) (local_path : List Char) :
    Except PathError RustPath :=
  let path := parsePath local_path
  if hasParentSeg path then .error .traversal
  else
    match fs.home with
    | none => .error .noHomeDir
    | some home_dir =>
      let full_path := if path.absolute then path else joinPath home_dir path
      match canonOrParent fs full_path with
      | none => .error .notFound
      | some normalized =>
        if ! startsWithPath normalized home_dir then .error .outsideRoot
        else .ok normalized

/-! ### Bounded Copy — `src/native/src/sftp.rs` lines 40–74 -/

/-- The failure cases of `copy_with_limit`. -/
inductive TransferError where
  | sizeExceeded
deriving DecidableEq

/-- Outcome of a bounded copy: the returned `Result` plus the number of
bytes actually written to the destination. -/
structure CopyResult where
  result : Except TransferError Nat
  written : Nat
deriving DecidableEq

/-- The `loop` of `copy_with_limit`, over the sequence of byte counts the
reader delivers (each bounded by the 8192-byte buffer): a zero-length read
is EOF; the running total is bumped and checked against `max_size` before
the chunk is written. -/
def copyLoop (maxSize : Nat) : List Nat → Nat → Nat → CopyResult
  | [], total, written => ⟨.ok total, written⟩
  | c :: rest, total, written =>
    if c = 0 then ⟨.ok total, written⟩
    else
      let total' := total + c
      if maxSize < total' then ⟨.error .sizeExceeded, written⟩
      else copyLoop maxSize rest total' (written + c)

/-- `copy_with_limit(reader, writer, max_size)` with the reader modelled as
the list of chunk sizes it delivers before EOF. -/
def copy_with_limit (chunks : List Nat) (maxSize : Nat) : CopyResult :=
  copyLoop maxSize chunks 0 0

/-- `MAX_FILE_SIZE = 10 * 1024 * 1024 * 1024`. -/
def MAX_FILE_SIZE : Nat := 10 * 1024 * 1024 * 1024

/-! ### Tunnel Process Supervisor — `src/native/src/tunnel.rs` -/

/-- A registry key, `format!("{}:{}", instance, remote_port)`. -/
abbrev TunnelKey := List Char

/-- `make_tunnel_key` (tunnel.rs lines 54–56). -/
def make_tunnel_key (inst : List Char) (remotePort : Nat) : TunnelKey :=
  inst ++ ':' :: (Nat.repr remotePort).toList

/-- The registry value: the `IapTunnel` struct minus the `Child` handle
(process behaviour lives in the oracles). -/
structure IapTunnel where
  localPort : Nat
deriving DecidableEq

/-- The `TUNNELS` map, modelled as an association list with unique keys. -/
abbrev Registry := List (TunnelKey × IapTunnel)

/-- `HashMap::get`. -/
def lookupT : Registry → TunnelKey → Option IapTunnel
  | [], _ => none
  | (k, t) :: rest, key => if k = key then some t else lookupT rest key

/-- `HashMap::remove`. -/
def removeT : Registry → TunnelKey → Registry
  | [], _ => []
  | (k, t) :: rest, key => if k = key then rest else (k, t) :: removeT rest key

/-- `HashMap::insert` (replacing any entry under the same key). -/
def insertT (reg : Registry) (key : TunnelKey) (t : IapTunnel) : Registry :=
  (key, t) :: removeT reg key

/-- The failure cases of the supervisor calls (each a distinct `anyhow!`
message in the source). -/
inductive TunnelError where
  | validation (e : ValidationError)
  | spawnFailed
  | processDied
  | portTimeout
  | noSuchTunnel
deriving DecidableEq

/-- The ambient OS behaviour one `start_tunnel` call observes:
whether `get_free_port` + `Command::spawn` succeed, which local port was
allocated, the single `is_process_alive` probe made after the 1000 ms
initialization sleep, and the result of the `is_port_listening` TCP probe
at each poll-loop attempt. -/
structure StartWorld where
  spawnOk : Bool
  freePort : Nat
  aliveAfterInit : Bool
  portListening : Nat → Bool

/-- Everything a `start_tunnel` call produces: the returned `Result`, the
registry afterwards, whether a subprocess was spawned, and whether the
spawned subprocess was killed by the call (`tunnel.stop()` on the
port-timeout path). -/
structure StartOutcome where
  result : Except TunnelError Nat
  registry : Registry
  spawned : Bool
  killedSpawned : Bool

/-- First attempt index in `start..start+fuel` accepted by `f` — the
`for attempt in 0..20` poll loop shape (each failed attempt is followed by
a 500 ms sleep in the source). -/
def firstListenAux (f : Nat → Bool) : Nat → Nat → Option Nat
  | _, 0 => none
  | start, fuel + 1 =>
    if f start then some start else firstListenAux f (start + 1) fuel

/-- The 20-attempt port poll loop of tunnel.rs lines 115–128: it probes
only `is_port_listening`. -/
def firstListen (f : Nat → Bool) : Option Nat := firstListenAux f 0 20

/-- `start_tunnel` after the three validations: the registry-reuse check,
spawn, the single liveness check, the port poll loop, and the final insert
(tunnel.rs lines 64–157). -/
def start_after_checks (w : StartWorld) (reg : Registry) (key : TunnelKey) :
    StartOutcome :=
  match lookupT reg key with
  | some t => ⟨.ok t.localPort, reg, false, false⟩
  | none =>
    if w.spawnOk then
      if w.aliveAfterInit then
        match firstListen w.portListening with
        | some _ => ⟨.ok w.freePort, insertT reg key ⟨w.freePort⟩, true, false⟩
        | none => ⟨.error .portTimeout, reg, true, true⟩
      else ⟨.error .processDied, reg, true, false⟩
    else ⟨.error .spawnFailed, reg, false, false⟩

/-- `start_tunnel` (tunnel.rs lines 58–158). -/
def start_tunnel (w : StartWorld) (reg : Registry)
    (project zone inst : List Char) (remotePort : Nat) : StartOutcome :=
  match validate_project_id project with
  | .error e => ⟨.error (.validation e), reg, false, false⟩
  | .ok _ =>
    match validate_zone zone with
    | .error e => ⟨.error (.validation e), reg, false, false⟩
    | .ok _ =>
      match validate_instance_name inst with
      | .error e => ⟨.error (.validation e), reg, false, false⟩
      | .ok _ => start_after_checks w reg (make_tunnel_key inst remotePort)

/-- `stop_tunnel` (tunnel.rs lines 160–179): remove the entry if present and
kill its process (`IapTunnel::stop` always returns `Ok`); a missing entry is
only logged.  The third component records whether a process was killed. -/
def stop_tunnel (reg : Registry) (inst : List Char) (remotePort : Nat) :
    Except TunnelError Unit × Registry × Bool :=
  let key := make_tunnel_key inst remotePort
  match lookupT reg key with
  | some _ => (.ok (), removeT reg key, true)
  | none => (.ok (), reg, false)

/-- The two probes one `check_tunnel_health` call makes on the entry it
finds: `is_process_alive` (`try_wait`) and `is_port_listening` (TCP
connect, 500 ms timeout). -/
structure HealthWorld where
  alive : Bool
  portL : Bool

/-- `IapTunnel::is_healthy` (tunnel.rs lines 44–47). -/
def is_healthy (w : HealthWorld) : Bool := w.alive && w.portL

/-- `check_tunnel_health` (tunnel.rs lines 183–205): error if the key is
absent, otherwise the conjunction of the two probes; the map itself is
never mutated (the "clean up" comment in the source is not acted on). -/
def check_tunnel_health (w : HealthWorld) (reg : Registry)
    (inst : List Char) (remotePort : Nat) :
    Except TunnelError Bool × Registry :=
  let key := make_tunnel_key inst remotePort
  match lookupT reg key with
  | some _ => (.ok (is_healthy w), reg)
  | none => (.error .noSuchTunnel, reg)

/-- Modelled from the claim's words (C5): a poll loop in which *each*
iteration checks both that the child process has not exited and that the
local port accepts a TCP connection, succeeding at the first iteration
where both hold.  This is compared against the loop the code actually runs
(`firstListen`, which never consults process liveness). -/
def claimPoll (alive portL : Nat → Bool) : Option Nat :=
  firstListenAux (fun i => alive i && portL i) 0 20

/-! ### Auxiliary definitions used by the verification statements -/

/-- `Result::is_err`. -/
def isErr {ε α : Type} : Except ε α → Bool
  | .error _ => true
  | .ok _ => false

/-- A concrete local filesystem: home is `/home/u`, nothing exists on disk
(every canonicalization fails). -/
def fsLocalW : LocalFs :=
  ⟨some ⟨true, [['h', 'o', 'm', 'e'], ['u']]⟩, fun _ => none⟩

/-- Concrete world for exercising a successful tunnel start: spawn works,
port 6000 is allocated, the process survives initialization, and the local
port starts accepting connections at poll attempt 2. -/
def wC5 : StartWorld := ⟨true, 6000, true, fun i => decide (2 ≤ i)⟩

/-- Concrete world in which the tunnel process dies during initialization. -/
def wC6 : StartWorld := ⟨true, 7000, false, fun _ => false⟩

/-- Process-liveness oracle for the C5 counterexample: the process is alive
at the single pre-loop check (index 0) and dead from then on. -/
def aliveCE : Nat → Bool := fun i => decide (i = 0)

/-- Port oracle for the C5 counterexample: the port starts accepting
connections at attempt 5 (after the process has died). -/
def portCE : Nat → Bool := fun i => decide (5 ≤ i)

/-- A one-entry registry holding a tunnel for `vm-a:22` on local port
4321. -/
def regC9 : Registry :=
  [(make_tunnel_key ['v', 'm', '-', 'a'] 22, ⟨4321⟩)]

/-! ### Lemmas about the identifier grammars -/

theorem isLowerAZ_ident {c : Char} (h : isLowerAZ c = true) :
    isIdentChar c = true := by
  simp [isIdentChar, h]

theorem isDigit09_ident {c : Char} (h : isDigit09 c = true) :
    isIdentChar c = true := by
  simp [isIdentChar, h]

theorem usernameStart_char {c : Char} (h : isUsernameStart c = true) :
    isUsernameChar c = true := by
  simp only [isUsernameStart, Bool.or_eq_true] at h
  rcases h with h | h
  · simp [isUsernameChar, h]
  · simp [isUsernameChar, h]

theorem projectIdRegexMatch_chars {s : List Char}
    (h : projectIdRegexMatch s = true) : ∀ c ∈ s, isIdentChar c = true := by
  cases s with
  | nil => simp [projectIdRegexMatch] at h
  | cons c rest =>
    simp only [projectIdRegexMatch, Bool.and_eq_true, Bool.or_eq_true] at h
    obtain ⟨hc, hrest⟩ := h
    intro x hx
    rcases List.mem_cons.mp hx with rfl | hx
    · exact isLowerAZ_ident hc
    · rcases hrest with he | hall
      · rw [List.isEmpty_iff.mp he] at hx
        simp at hx
      · obtain ⟨⟨-, hall⟩, -⟩ := hall
        exact List.all_eq_true.mp hall x hx

theorem instanceNameRegexMatch_chars {s : List Char}
    (h : instanceNameRegexMatch s = true) : ∀ c ∈ s, isIdentChar c = true := by
  cases s with
  | nil => simp [instanceNameRegexMatch] at h
  | cons c rest =>
    simp only [instanceNameRegexMatch, Bool.and_eq_true, Bool.or_eq_true] at h
    obtain ⟨hc, hrest⟩ := h
    intro x hx
    rcases List.mem_cons.mp hx with rfl | hx
    · exact isLowerAZ_ident hc
    · rcases hrest with he | hall
      · rw [List.isEmpty_iff.mp he] at hx
        simp at hx
      · obtain ⟨⟨-, hall⟩, -⟩ := hall
        exact List.all_eq_true.mp hall x hx

theorem usernameRegexMatch_chars {s : List Char}
    (h : usernameRegexMatch s = true) : ∀ c ∈ s, isUsernameChar c = true := by
  cases s with
  | nil => simp [usernameRegexMatch] at h
  | cons c rest =>
    simp only [usernameRegexMatch, Bool.and_eq_true] at h
    obtain ⟨⟨hc, -⟩, hall⟩ := h
    intro x hx
    rcases List.mem_cons.mp hx with rfl | hx
    · exact usernameStart_char hc
    · exact List.all_eq_true.mp hall x hx

theorem zoneTailZ_chars {l : List Char} (h : zoneTailZ l = true) :
    ∀ c ∈ l, isIdentChar c = true := by
  cases l with
  | nil => simp [zoneTailZ] at h
  | cons z rest =>
    cases rest with
    | nil =>
      intro c hc
      rcases List.mem_cons.mp hc with rfl | hc
      · exact isLowerAZ_ident (by simpa [zoneTailZ] using h)
      · simp at hc
    | cons _ _ => simp [zoneTailZ] at h

theorem zoneNumRest_chars : ∀ l : List Char, zoneNumRest l = true →
    ∀ c ∈ l, isIdentChar c = true := by
  intro l
  induction l with
  | nil => intro h; simp [zoneNumRest] at h
  | cons c rest ih =>
    intro h x hx
    simp only [zoneNumRest] at h
    by_cases hd : isDigit09 c = true
    · rw [if_pos hd] at h
      rcases List.mem_cons.mp hx with rfl | hx
      · exact isDigit09_ident hd
      · exact ih h x hx
    · rw [if_neg hd, Bool.and_eq_true] at h
      obtain ⟨hc, ht⟩ := h
      rcases List.mem_cons.mp hx with rfl | hx
      · rw [of_decide_eq_true hc]; decide
      · exact zoneTailZ_chars ht x hx

theorem zoneLocRest_chars : ∀ l : List Char, zoneLocRest l = true →
    ∀ c ∈ l, isIdentChar c = true := by
  intro l
  induction l with
  | nil => intro h; simp [zoneLocRest] at h
  | cons c rest ih =>
    intro h x hx
    simp only [zoneLocRest] at h
    by_cases hl : isLowerAZ c = true
    · rw [if_pos hl] at h
      rcases List.mem_cons.mp hx with rfl | hx
      · exact isLowerAZ_ident hl
      · exact ih h x hx
    · rw [if_neg hl, Bool.and_eq_true] at h
      obtain ⟨hc, ht⟩ := h
      rcases List.mem_cons.mp hx with rfl | hx
      · exact isDigit09_ident hc
      · exact zoneNumRest_chars rest ht x hx

theorem zoneRegionRest_chars : ∀ l : List Char, zoneRegionRest l = true →
    ∀ c ∈ l, isIdentChar c = true := by
  intro l
  induction l with
  | nil => intro h; simp [zoneRegionRest] at h
  | cons c rest ih =>
    intro h x hx
    simp only [zoneRegionRest] at h
    by_cases hl : isLowerAZ c = true
    · rw [if_pos hl] at h
      rcases List.mem_cons.mp hx with rfl | hx
      · exact isLowerAZ_ident hl
      · exact ih h x hx
    · rw [if_neg hl, Bool.and_eq_true] at h
      obtain ⟨hc, ht⟩ := h
      rcases List.mem_cons.mp hx with rfl | hx
      · rw [of_decide_eq_true hc]; decide
      · cases rest with
        | nil => simp at ht
        | cons d rest2 =>
          rw [Bool.and_eq_true] at ht
          obtain ⟨hd, hloc⟩ := ht
          rcases List.mem_cons.mp hx with rfl | hx
          · exact isLowerAZ_ident hd
          · exact zoneLocRest_chars rest2 hloc x hx

theorem zoneRegexMatch_chars {s : List Char} (h : zoneRegexMatch s = true) :
    ∀ c ∈ s, isIdentChar c = true := by
  cases s with
  | nil => simp [zoneRegexMatch] at h
  | cons c rest =>
    rw [zoneRegexMatch, Bool.and_eq_true] at h
    obtain ⟨hc, hr⟩ := h
    intro x hx
    rcases List.mem_cons.mp hx with rfl | hx
    · exact isLowerAZ_ident hc
    · exact zoneRegionRest_chars rest hr x hx

theorem isShellMeta_elim {c : Char} (h : isShellMeta c = true) :
    isIdentChar c = false ∧ isUsernameChar c = false := by
  have hc : c ∈ shellMetas := of_decide_eq_true (by simpa [isShellMeta] using h)
  simp only [shellMetas, List.mem_cons, List.not_mem_nil, or_false] at hc
  rcases hc with rfl | rfl | rfl | rfl | rfl | rfl | rfl | rfl | rfl | rfl | rfl <;>
    decide

theorem dot_elim : isIdentChar '.' = false ∧ isUsernameChar '.' = false := by
  decide

theorem projectIdRegexMatch_false_of_bad {s : List Char} {c : Char}
    (hc : c ∈ s) (hbad : isIdentChar c = false) :
    projectIdRegexMatch s = false := by
  by_contra h
  rw [Bool.not_eq_false] at h
  rw [projectIdRegexMatch_chars h c hc] at hbad
  exact Bool.true_eq_false.mp hbad

theorem instanceNameRegexMatch_false_of_bad {s : List Char} {c : Char}
    (hc : c ∈ s) (hbad : isIdentChar c = false) :
    instanceNameRegexMatch s = false := by
  by_contra h
  rw [Bool.not_eq_false] at h
  rw [instanceNameRegexMatch_chars h c hc] at hbad
  exact Bool.true_eq_false.mp hbad

theorem usernameRegexMatch_false_of_bad {s : List Char} {c : Char}
    (hc : c ∈ s) (hbad : isUsernameChar c = false) :
    usernameRegexMatch s = false := by
  by_contra h
  rw [Bool.not_eq_false] at h
  rw [usernameRegexMatch_chars h c hc] at hbad
  exact Bool.true_eq_false.mp hbad

theorem zoneRegexMatch_false_of_bad {s : List Char} {c : Char}
    (hc : c ∈ s) (hbad : isIdentChar c = false) :
    zoneRegexMatch s = false := by
  by_contra h
  rw [Bool.not_eq_false] at h
  rw [zoneRegexMatch_chars h c hc] at hbad
  exact Bool.true_eq_false.mp hbad

theorem validate_project_id_err {s : List Char}
    (h : projectIdRegexMatch s = false) :
    isErr (validate_project_id s) = true := by
  unfold validate_project_id
  split
  · rfl
  · rw [h]; rfl

theorem validate_zone_err {s : List Char} (h : zoneRegexMatch s = false) :
    isErr (validate_zone s) = true := by
  unfold validate_zone
  split
  · rfl
  · rw [h]; rfl

theorem validate_instance_name_err {s : List Char}
    (h : instanceNameRegexMatch s = false) :
    isErr (validate_instance_name s) = true := by
  unfold validate_instance_name
  split
  · rfl
  · split
    · rfl
    · rw [h]; rfl

theorem validate_username_err {s : List Char}
    (h : usernameRegexMatch s = false) :
    isErr (validate_username s) = true := by
  unfold validate_username
  split
  · rfl
  · split
    · rfl
    · rw [h]; rfl

theorem validate_project_id_ok {s : List Char}
    (h : projectIdRegexMatch s = true) : validate_project_id s = .ok () := by
  cases s with
  | nil => simp [projectIdRegexMatch] at h
  | cons c rest => simp [validate_project_id, h]

theorem validate_zone_ok {s : List Char} (h : zoneRegexMatch s = true) :
    validate_zone s = .ok () := by
  cases s with
  | nil => simp [zoneRegexMatch] at h
  | cons c rest => simp [validate_zone, h]

theorem instanceNameRegexMatch_length {s : List Char}
    (h : instanceNameRegexMatch s = true) : s.length ≤ 63 := by
  cases s with
  | nil => simp [instanceNameRegexMatch] at h
  | cons c rest =>
    simp only [instanceNameRegexMatch, Bool.and_eq_true, Bool.or_eq_true] at h
    obtain ⟨-, hrest⟩ := h
    rcases hrest with he | hlen
    · rw [List.isEmpty_iff.mp he]
      simp
    · obtain ⟨⟨⟨-, hlen⟩, -⟩, -⟩ := hlen
      have := of_decide_eq_true hlen
      simp only [List.length_cons]
      omega

theorem validate_instance_name_ok {s : List Char}
    (h : instanceNameRegexMatch s = true) :
    validate_instance_name s = .ok () := by
  cases s with
  | nil => simp [instanceNameRegexMatch] at h
  | cons c rest =>
    have h62 : rest.length ≤ 62 := by
      have := instanceNameRegexMatch_length h
      simp only [List.length_cons] at this
      omega
    simp [validate_instance_name, h, h62]

theorem usernameRegexMatch_length {s : List Char}
    (h : usernameRegexMatch s = true) : s.length ≤ 32 := by
  cases s with
  | nil => simp [usernameRegexMatch] at h
  | cons c rest =>
    simp only [usernameRegexMatch, Bool.and_eq_true] at h
    obtain ⟨⟨-, hlen⟩, -⟩ := h
    have := of_decide_eq_true hlen
    simp only [List.length_cons]
    omega

theorem validate_username_ok {s : List Char}
    (h : usernameRegexMatch s = true) : validate_username s = .ok () := by
  cases s with
  | nil => simp [usernameRegexMatch] at h
  | cons c rest =>
    have h31 : rest.length ≤ 31 := by
      have := usernameRegexMatch_length h
      simp only [List.length_cons] at this
      omega
    simp [validate_username, h, h31]

/-- C8: every string containing one of the shell metacharacters
`; | & backtick $ ( )`, whitespace, or a `..` character sequence is
rejected by all four validators, and every string matching the respective
regex grammar is accepted. -/
theorem C8_validators_reject_metachars_accept_grammar (s : List Char) :
    (((∃ c ∈ s, isShellMeta c = true) ∨ ['.', '.'] <:+: s) →
      isErr (validate_project_id s) = true ∧
      isErr (validate_zone s) = true ∧
      isErr (validate_instance_name s) = true ∧
      isErr (validate_username s) = true) ∧
    (projectIdRegexMatch s = true → validate_project_id s = .ok ()) ∧
    (zoneRegexMatch s = true → validate_zone s = .ok ()) ∧
    (instanceNameRegexMatch s = true → validate_instance_name s = .ok ()) ∧
    (usernameRegexMatch s = true → validate_username s = .ok ()) := by
  refine ⟨?_, fun h => validate_project_id_ok h, fun h => validate_zone_ok h,
    fun h => validate_instance_name_ok h, fun h => validate_username_ok h⟩
  intro h
  have hbad : ∃ c ∈ s, isIdentChar c = false ∧ isUsernameChar c = false := by
    rcases h with ⟨c, hc, hm⟩ | hinf
    · exact ⟨c, hc, isShellMeta_elim hm⟩
    · exact ⟨'.', hinf.subset (by simp), dot_elim⟩
  obtain ⟨c, hc, hbi, hbu⟩ := hbad
  exact ⟨validate_project_id_err (projectIdRegexMatch_false_of_bad hc hbi),
    validate_zone_err (zoneRegexMatch_false_of_bad hc hbi),
    validate_instance_name_err (instanceNameRegexMatch_false_of_bad hc hbi),
    validate_username_err (usernameRegexMatch_false_of_bad hc hbu)⟩

/-- Witness for C8 at concrete inputs: `"vm;x"` (contains `;`) is rejected
by all four validators, and the grammatical zone `"us-central1-a"` is
accepted. -/
theorem C8_witness :
    (isErr (validate_project_id ['v', 'm', ';', 'x']) = true ∧
      isErr (validate_zone ['v', 'm', ';', 'x']) = true ∧
      isErr (validate_instance_name ['v', 'm', ';', 'x']) = true ∧
      isErr (validate_username ['v', 'm', ';', 'x']) = true) ∧
    validate_zone ['u', 's', '-', 'c', 'e', 'n', 't', 'r', 'a', 'l', '1',
      '-', 'a'] = .ok () :=
  ⟨(C8_validators_reject_metachars_accept_grammar ['v', 'm', ';', 'x']).1
      (Or.inl (by decide)),
    (C8_validators_reject_metachars_accept_grammar ['u', 's', '-', 'c', 'e',
      'n', 't', 'r', 'a', 'l', '1', '-', 'a']).2.2.1 (by decide)⟩

/-- C7 (code bug): `validate_project_id` accepts the one-character string
`"a"`, although the regex comment, the function's doc comment and the spec
all require 6–30 characters — the optional group of `PROJECT_ID_REGEX`
makes every single lowercase letter match, and no separate length check
exists. -/
theorem C7_project_id_accepts_single_char :
    validate_project_id ['a'] = .ok () ∧ (['a'] : List Char).length < 6 := by
  decide

/-! ### Lemmas about the path guard -/

theorem canonSegs_no_dotdot : ∀ (l acc : List Seg),
    ['.', '.'] ∉ acc → ['.', '.'] ∉ canonSegs acc l := by
  intro l
  induction l with
  | nil => intro acc h; simpa [canonSegs] using h
  | cons seg rest ih =>
    intro acc h
    simp only [canonSegs]
    by_cases h1 : seg = ['.', '.']
    · rw [if_pos h1]
      exact ih _ (fun hm => h ((List.dropLast_sublist acc).subset hm))
    · rw [if_neg h1]
      by_cases h2 : seg = ['.']
      · rw [if_pos h2]; exact ih _ h
      · rw [if_neg h2]
        refine ih _ ?_
        intro hm
        rcases List.mem_append.mp hm with hm | hm
        · exact h hm
        · exact h1 (List.mem_singleton.mp hm).symm

theorem path_guard_tail_ok {full base p : RustPath}
    (h : (if (! startsWithPath (normalizePath full) base) = true
          then Except.error PathError.outsideRoot
          else Except.ok (normalizePath full)) = Except.ok p) :
    ['.', '.'] ∉ p.segs ∧ startsWithPath p base = true := by
  split at h
  · exact absurd h (by simp)
  · rename_i hcond
    injection h with h
    subst h
    constructor
    · simp only [normalizePath]
      exact canonSegs_no_dotdot _ [] (by simp)
    · simpa using hcond

/-- C1 (amended): whenever `validate_and_normalize_path` succeeds, the
returned path contains no parent-directory component and satisfies
`starts_with("/home/{username}")` — it is a descendant of the confinement
root *or the root itself* (the code's `starts_with` check accepts
equality, so strictness does not hold; see the counterexample). -/
theorem C1_remote_path_confined (raw user : List Char) (p : RustPath)
    (h : validate_and_normalize_path raw user = .ok p) :
    ['.', '.'] ∉ p.segs ∧ startsWithPath p (homeBase user) = true := by
  unfold validate_and_normalize_path at h
  cases hu : validate_username user with
  | error e => rw [hu] at h; exact absurd h (by simp)
  | ok u =>
    rw [hu] at h
    dsimp only at h
    split at h
    · exact absurd h (by simp)
    · split at h <;> exact path_guard_tail_ok h

/-- Witness for C1: the relative path `"docs"` for user `"alice"`
normalizes to `/home/alice/docs`, which has no `..` component and starts
with the confinement root. -/
theorem C1_witness :
    ['.', '.'] ∉ (RustPath.mk true
      [['h', 'o', 'm', 'e'], ['a', 'l', 'i', 'c', 'e'],
        ['d', 'o', 'c', 's']]).segs ∧
    startsWithPath
      (RustPath.mk true [['h', 'o', 'm', 'e'], ['a', 'l', 'i', 'c', 'e'],
        ['d', 'o', 'c', 's']])
      (homeBase ['a', 'l', 'i', 'c', 'e']) = true :=
  C1_remote_path_confined ['d', 'o', 'c', 's'] ['a', 'l', 'i', 'c', 'e'] _
    (by decide)

/-- Counterexample for C1 as stated: the raw path `"/home/alice"` with
username `"alice"` is accepted, and the returned path *is* the confinement
root itself — not a strict descendant of it. -/
theorem C1_counterexample :
    validate_and_normalize_path
        ['/', 'h', 'o', 'm', 'e', '/', 'a', 'l', 'i', 'c', 'e']
        ['a', 'l', 'i', 'c', 'e'] =
      .ok (homeBase ['a', 'l', 'i', 'c', 'e']) ∧
    homeBase ['a', 'l', 'i', 'c', 'e'] =
      RustPath.mk true [['h', 'o', 'm', 'e'], ['a', 'l', 'i', 'c', 'e']] := by
  decide

/-- C2 (amended): for every path containing a `..` component,
`validate_local_path` fails with a traversal error for every filesystem
state, and `validate_and_normalize_path` always fails — with a traversal
error when the username is valid, but with an invalid-username error when
the username is invalid (the username check runs first). -/
theorem C2_dotdot_always_rejected (raw user : List Char) (fs : LocalFs)
    (h : hasParentSeg (parsePath raw) = true) :
    validate_local_path fs raw = .error .traversal ∧
    (validate_username user = .ok () →
      validate_and_normalize_path raw user = .error .traversal) ∧
    (∀ e, validate_username user = .error e →
      validate_and_normalize_path raw user = .error (.invalidUsername e)) := by
  refine ⟨?_, ?_, ?_⟩
  · unfold validate_local_path
    simp [h]
  · intro hu
    unfold validate_and_normalize_path
    rw [hu]
    simp [h]
  · intro e hu
    unfold validate_and_normalize_path
    rw [hu]

/-- Witness for C2: the path `"../x"` is rejected with a traversal error by
both validators (here with the valid username `"a"` and a concrete local
filesystem). -/
theorem C2_witness :
    validate_local_path fsLocalW ['.', '.', '/', 'x'] = .error .traversal ∧
    validate_and_normalize_path ['.', '.', '/', 'x'] ['a'] =
      .error .traversal :=
  ⟨(C2_dotdot_always_rejected ['.', '.', '/', 'x'] ['a'] fsLocalW
      (by decide)).1,
    (C2_dotdot_always_rejected ['.', '.', '/', 'x'] ['a'] fsLocalW
      (by decide)).2.1 (by decide)⟩

/-- Counterexample for C2 as stated: for the traversal path `"../x"` and
the *invalid* username `"R"`, `validate_and_normalize_path` fails with an
invalid-username error, not a traversal error. -/
theorem C2_counterexample :
    hasParentSeg (parsePath ['.', '.', '/', 'x']) = true ∧
    validate_and_normalize_path ['.', '.', '/', 'x'] ['R'] =
      .error (.invalidUsername .invalidFormat) ∧
    validate_and_normalize_path ['.', '.', '/', 'x'] ['R'] ≠
      .error .traversal := by
  decide

/-! ### Lemmas about the bounded copy -/

theorem copyLoop_ok (maxSize : Nat) : ∀ (chunks : List Nat) (t w : Nat),
    (∀ c ∈ chunks, 0 < c) → t + chunks.sum ≤ maxSize →
    copyLoop maxSize chunks t w =
      ⟨.ok (t + chunks.sum), w + chunks.sum⟩ := by
  intro chunks
  induction chunks with
  | nil => intro t w _ _; simp [copyLoop]
  | cons c rest ih =>
    intro t w hpos hle
    have hc : 0 < c := hpos c (List.mem_cons_self c rest)
    have hsum : t + (c :: rest).sum = (t + c) + rest.sum := by
      simp [List.sum_cons]; omega
    simp only [copyLoop]
    rw [if_neg (by omega)]
    rw [if_neg (by rw [List.sum_cons] at hle; omega)]
    rw [ih (t + c) (w + c) (fun x hx => hpos x (List.mem_cons_of_mem c hx))
      (by rw [List.sum_cons] at hle; omega)]
    congr 1
    · rw [List.sum_cons]; congr 1; omega
    · rw [List.sum_cons]; omega

theorem copyLoop_exceeded (maxSize : Nat) : ∀ (chunks : List Nat) (t w : Nat),
    (∀ c ∈ chunks, 0 < c) → t ≤ maxSize → maxSize < t + chunks.sum →
    (copyLoop maxSize chunks t w).result = .error .sizeExceeded ∧
    (copyLoop maxSize chunks t w).written + t ≤ maxSize + w := by
  intro chunks
  induction chunks with
  | nil =>
    intro t w _ ht hlt
    rw [List.sum_nil] at hlt
    omega
  | cons c rest ih =>
    intro t w hpos ht hlt
    have hc : 0 < c := hpos c (List.mem_cons_self c rest)
    rw [List.sum_cons] at hlt
    simp only [copyLoop]
    rw [if_neg (by omega)]
    by_cases hover : maxSize < t + c
    · rw [if_pos hover]
      refine ⟨rfl, ?_⟩
      show w + t ≤ maxSize + w
      omega
    · rw [if_neg hover]
      have := ih (t + c) (w + c)
        (fun x hx => hpos x (List.mem_cons_of_mem c hx)) (by omega) (by omega)
      exact ⟨this.1, by omega⟩

/-- C3: over a reader delivering exactly `max_bytes` bytes (in nonempty
chunks of at most the 8192-byte buffer size), `copy_with_limit` succeeds,
returns `max_bytes` and writes `max_bytes` bytes; over `max_bytes + 1`
bytes it fails with the size-exceeded error and writes at most `max_bytes`
bytes — the offending chunk is never written. -/
theorem C3_copy_with_limit_boundary (chunks : List Nat) (maxSize : Nat)
    (hchunk : ∀ c ∈ chunks, 0 < c ∧ c ≤ 8192) :
    (chunks.sum = maxSize →
      copy_with_limit chunks maxSize = ⟨.ok maxSize, maxSize⟩) ∧
    (chunks.sum = maxSize + 1 →
      (copy_with_limit chunks maxSize).result = .error .sizeExceeded ∧
      (copy_with_limit chunks maxSize).written ≤ maxSize) := by
  constructor
  · intro hsum
    have := copyLoop_ok maxSize chunks 0 0 (fun c hc => (hchunk c hc).1)
      (by omega)
    simpa [copy_with_limit, hsum] using this
  · intro hsum
    have := copyLoop_exceeded maxSize chunks 0 0 (fun c hc => (hchunk c hc).1)
      (by omega) (by omega)
    refine ⟨this.1, ?_⟩
    have h3 := this.2
    simp only [copy_with_limit]
    omega

/-- Witness for C3: chunks of 2 and 3 bytes against a 5-byte limit succeed
with 5 bytes written; the same chunks against a 4-byte limit abort with the
size error having written only the first chunk (2 ≤ 4 bytes). -/
theorem C3_witness :
    copy_with_limit [2, 3] 5 = ⟨.ok 5, 5⟩ ∧
    ((copy_with_limit [2, 3] 4).result = .error .sizeExceeded ∧
      (copy_with_limit [2, 3] 4).written ≤ 4) :=
  ⟨(C3_copy_with_limit_boundary [2, 3] 5 (by decide)).1 (by decide),
    (C3_copy_with_limit_boundary [2, 3] 4 (by decide)).2 (by decide)⟩

/-! ### Lemmas about the tunnel supervisor -/

theorem lookupT_insertT_self (reg : Registry) (key : TunnelKey)
    (t : IapTunnel) : lookupT (insertT reg key t) key = some t := by
  simp [insertT, lookupT]

theorem firstListenAux_eq_some (f : Nat → Bool) : ∀ (fuel start i : Nat),
    firstListenAux f start fuel = some i →
    f i = true ∧ start ≤ i ∧ i < start + fuel ∧
      ∀ j, start ≤ j → j < i → f j = false := by
  intro fuel
  induction fuel with
  | zero => intro start i h; simp [firstListenAux] at h
  | succ n ih =>
    intro start i h
    simp only [firstListenAux] at h
    by_cases hf : f start = true
    · rw [if_pos hf] at h
      injection h with h
      subst h
      exact ⟨hf, Nat.le_refl _, by omega, fun j hj1 hj2 => absurd hj2 (by omega)⟩
    · rw [if_neg hf] at h
      obtain ⟨h1, h2, h3, h4⟩ := ih (start + 1) i h
      have hfs : f start = false := by simpa using hf
      refine ⟨h1, by omega, by omega, ?_⟩
      intro j hj1 hj2
      by_cases hje : j = start
      · rw [hje]; exact hfs
      · exact h4 j (by omega) hj2

theorem start_tunnel_eq_after_checks (w : StartWorld) (reg : Registry)
    (project zone inst : List Char) (rp : Nat)
    (hp : validate_project_id project = .ok ())
    (hz : validate_zone zone = .ok ())
    (hi : validate_instance_name inst = .ok ()) :
    start_tunnel w reg project zone inst rp =
      start_after_checks w reg (make_tunnel_key inst rp) := by
  unfold start_tunnel
  rw [hp, hz, hi]

theorem start_tunnel_ok_inv (w : StartWorld) (reg : Registry)
    (project zone inst : List Char) (rp p : Nat)
    (h : (start_tunnel w reg project zone inst rp).result = .ok p) :
    validate_project_id project = .ok () ∧ validate_zone zone = .ok () ∧
      validate_instance_name inst = .ok () := by
  unfold start_tunnel at h
  cases hp : validate_project_id project with
  | error e => rw [hp] at h; simp at h
  | ok u =>
    cases u
    rw [hp] at h
    cases hz : validate_zone zone with
    | error e => rw [hz] at h; simp at h
    | ok u2 =>
      cases u2
      rw [hz] at h
      cases hi : validate_instance_name inst with
      | error e => rw [hi] at h; simp at h
      | ok u3 =>
        cases u3
        exact ⟨rfl, rfl, rfl⟩

theorem start_after_checks_hit (w : StartWorld) (reg : Registry)
    (key : TunnelKey) (t : IapTunnel) (h : lookupT reg key = some t) :
    start_after_checks w reg key = ⟨.ok t.localPort, reg, false, false⟩ := by
  unfold start_after_checks
  rw [h]

theorem start_after_checks_ok (w : StartWorld) (reg : Registry)
    (key : TunnelKey) (p : Nat)
    (h : (start_after_checks w reg key).result = .ok p) :
    lookupT (start_after_checks w reg key).registry key = some ⟨p⟩ := by
  unfold start_after_checks at h ⊢
  cases hl : lookupT reg key with
  | some t =>
    rw [hl] at h
    dsimp only at h ⊢
    injection h with h
    rw [hl, ← h]
  | none =>
    rw [hl] at h
    dsimp only at h ⊢
    by_cases hs : w.spawnOk = true
    · rw [if_pos hs] at h ⊢
      by_cases ha : w.aliveAfterInit = true
      · rw [if_pos ha] at h ⊢
        cases hfl : firstListen w.portListening with
        | some i =>
          rw [hfl] at h
          dsimp only at h ⊢
          injection h with h
          rw [← h]
          exact lookupT_insertT_self reg key ⟨w.freePort⟩
        | none => rw [hfl] at h; simp at h
      · rw [if_neg ha] at h; simp at h
    · rw [if_neg hs] at h; simp at h

theorem start_tunnel_shape (w : StartWorld) (reg : Registry)
    (project zone inst : List Char) (rp : Nat) :
    (∃ e, start_tunnel w reg project zone inst rp =
        ⟨.error (.validation e), reg, false, false⟩) ∨
    (∃ t, lookupT reg (make_tunnel_key inst rp) = some t ∧
        start_tunnel w reg project zone inst rp =
          ⟨.ok t.localPort, reg, false, false⟩) ∨
    start_tunnel w reg project zone inst rp =
      ⟨.error .spawnFailed, reg, false, false⟩ ∨
    start_tunnel w reg project zone inst rp =
      ⟨.error .processDied, reg, true, false⟩ ∨
    start_tunnel w reg project zone inst rp =
      ⟨.error .portTimeout, reg, true, true⟩ ∨
    start_tunnel w reg project zone inst rp =
      ⟨.ok w.freePort, insertT reg (make_tunnel_key inst rp) ⟨w.freePort⟩,
        true, false⟩ := by
  unfold start_tunnel start_after_checks
  cases validate_project_id project with
  | error e => exact Or.inl ⟨e, rfl⟩
  | ok _ =>
    cases validate_zone zone with
    | error e => exact Or.inl ⟨e, rfl⟩
    | ok _ =>
      cases validate_instance_name inst with
      | error e => exact Or.inl ⟨e, rfl⟩
      | ok _ =>
        cases hl : lookupT reg (make_tunnel_key inst rp) with
        | some t => exact Or.inr (Or.inl ⟨t, rfl, rfl⟩)
        | none =>
          by_cases hs : w.spawnOk = true
          · rw [if_pos hs]
            by_cases ha : w.aliveAfterInit = true
            · rw [if_pos ha]
              cases firstListen w.portListening with
              | some i => exact Or.inr (Or.inr (Or.inr (Or.inr (Or.inr rfl))))
              | none => exact Or.inr (Or.inr (Or.inr (Or.inr (Or.inl rfl))))
            · rw [if_neg ha]
              exact Or.inr (Or.inr (Or.inr (Or.inl rfl)))
          · rw [if_neg hs]
            exact Or.inr (Or.inr (Or.inl rfl))

/-- C4: if a first `start_tunnel` call succeeds with local port `p1`, a
second call with the same `(instance, remote_port)` — in any world —
returns the same local port `p1`, spawns no subprocess, and leaves the
registry unchanged: the registry holds at most one tunnel per key. -/
theorem C4_start_tunnel_idempotent (w1 w2 : StartWorld) (reg : Registry)
    (project zone inst : List Char) (rp p1 : Nat)
    (h1 : (start_tunnel w1 reg project zone inst rp).result = .ok p1) :
    (start_tunnel w2 (start_tunnel w1 reg project zone inst rp).registry
        project zone inst rp).result = .ok p1 ∧
    (start_tunnel w2 (start_tunnel w1 reg project zone inst rp).registry
        project zone inst rp).spawned = false ∧
    (start_tunnel w2 (start_tunnel w1 reg project zone inst rp).registry
        project zone inst rp).registry =
      (start_tunnel w1 reg project zone inst rp).registry := by
  obtain ⟨hp, hz, hi⟩ := start_tunnel_ok_inv w1 reg project zone inst rp p1 h1
  rw [start_tunnel_eq_after_checks w1 reg project zone inst rp hp hz hi] at h1
  rw [start_tunnel_eq_after_checks w1 reg project zone inst rp hp hz hi,
    start_tunnel_eq_after_checks w2 _ project zone inst rp hp hz hi,
    start_after_checks_hit w2 _ _ _
      (start_after_checks_ok w1 reg _ p1 h1)]
  exact ⟨rfl, rfl, rfl⟩

/-- Witness for C4: starting twice for `(demo-proj, us-central1-a, vm-a,
22)` in world `wC5`, the second call returns the first call's port 6000,
spawns nothing and leaves the registry as the first call left it. -/
theorem C4_witness :
    (start_tunnel wC5
        (start_tunnel wC5 [] ['d', 'e', 'm', 'o', '-', 'p', 'r', 'o', 'j']
          ['u', 's', '-', 'c', 'e', 'n', 't', 'r', 'a', 'l', '1', '-', 'a']
          ['v', 'm', '-', 'a'] 22).registry
        ['d', 'e', 'm', 'o', '-', 'p', 'r', 'o', 'j']
        ['u', 's', '-', 'c', 'e', 'n', 't', 'r', 'a', 'l', '1', '-', 'a']
        ['v', 'm', '-', 'a'] 22).result = .ok 6000 ∧
    (start_tunnel wC5
        (start_tunnel wC5 [] ['d', 'e', 'm', 'o', '-', 'p', 'r', 'o', 'j']
          ['u', 's', '-', 'c', 'e', 'n', 't', 'r', 'a', 'l', '1', '-', 'a']
          ['v', 'm', '-', 'a'] 22).registry
        ['d', 'e', 'm', 'o', '-', 'p', 'r', 'o', 'j']
        ['u', 's', '-', 'c', 'e', 'n', 't', 'r', 'a', 'l', '1', '-', 'a']
        ['v', 'm', '-', 'a'] 22).spawned = false ∧
    (start_tunnel wC5
        (start_tunnel wC5 [] ['d', 'e', 'm', 'o', '-', 'p', 'r', 'o', 'j']
          ['u', 's', '-', 'c', 'e', 'n', 't', 'r', 'a', 'l', '1', '-', 'a']
          ['v', 'm', '-', 'a'] 22).registry
        ['d', 'e', 'm', 'o', '-', 'p', 'r', 'o', 'j']
        ['u', 's', '-', 'c', 'e', 'n', 't', 'r', 'a', 'l', '1', '-', 'a']
        ['v', 'm', '-', 'a'] 22).registry =
      (start_tunnel wC5 [] ['d', 'e', 'm', 'o', '-', 'p', 'r', 'o', 'j']
        ['u', 's', '-', 'c', 'e', 'n', 't', 'r', 'a', 'l', '1', '-', 'a']
        ['v', 'm', '-', 'a'] 22).registry :=
  C4_start_tunnel_idempotent wC5 wC5 []
    ['d', 'e', 'm', 'o', '-', 'p', 'r', 'o', 'j']
    ['u', 's', '-', 'c', 'e', 'n', 't', 'r', 'a', 'l', '1', '-', 'a']
    ['v', 'm', '-', 'a'] 22 6000 (by decide)

/-- C5 (amended): the readiness wait polls only port reachability —
process liveness is checked once before the loop, not at each iteration —
for at most 20 attempts (each failed attempt followed by a 500 ms sleep in
the source); the first attempt at which the port accepts ends the loop,
the call succeeds with the allocated port, and the handle is inserted into
the registry. -/
theorem C5_poll_loop_port_only (w : StartWorld) (reg : Registry)
    (project zone inst : List Char) (rp i : Nat)
    (hp : validate_project_id project = .ok ())
    (hz : validate_zone zone = .ok ())
    (hi : validate_instance_name inst = .ok ())
    (habs : lookupT reg (make_tunnel_key inst rp) = none)
    (hs : w.spawnOk = true)
    (ha : w.aliveAfterInit = true)
    (hfind : firstListen w.portListening = some i) :
    (start_tunnel w reg project zone inst rp).result = .ok w.freePort ∧
    (start_tunnel w reg project zone inst rp).registry =
      insertT reg (make_tunnel_key inst rp) ⟨w.freePort⟩ ∧
    i < 20 ∧ w.portListening i = true ∧
    ∀ j < i, w.portListening j = false := by
  rw [start_tunnel_eq_after_checks w reg project zone inst rp hp hz hi]
  unfold start_after_checks
  rw [habs, if_pos hs, if_pos ha, hfind]
  obtain ⟨h1, h2, h3, h4⟩ := firstListenAux_eq_some w.portListening 20 0 i
    (by simpa [firstListen] using hfind)
  exact ⟨rfl, rfl, by omega, h1, fun j hj => h4 j (Nat.zero_le j) hj⟩

/-- Witness for C5: in world `wC5` the port first listens at attempt 2;
the start succeeds with port 6000 and inserts the handle. -/
theorem C5_witness :
    (start_tunnel wC5 [] ['d', 'e', 'm', 'o', '-', 'p', 'r', 'o', 'j']
        ['u', 's', '-', 'c', 'e', 'n', 't', 'r', 'a', 'l', '1', '-', 'a']
        ['v', 'm', '-', 'a'] 22).result = .ok wC5.freePort ∧
    (start_tunnel wC5 [] ['d', 'e', 'm', 'o', '-', 'p', 'r', 'o', 'j']
        ['u', 's', '-', 'c', 'e', 'n', 't', 'r', 'a', 'l', '1', '-', 'a']
        ['v', 'm', '-', 'a'] 22).registry =
      insertT [] (make_tunnel_key ['v', 'm', '-', 'a'] 22) ⟨wC5.freePort⟩ ∧
    2 < 20 ∧ wC5.portListening 2 = true ∧
    ∀ j < 2, wC5.portListening j = false :=
  C5_poll_loop_port_only wC5 [] ['d', 'e', 'm', 'o', '-', 'p', 'r', 'o', 'j']
    ['u', 's', '-', 'c', 'e', 'n', 't', 'r', 'a', 'l', '1', '-', 'a']
    ['v', 'm', '-', 'a'] 22 2 (by decide) (by decide) (by decide) (by decide)
    (by decide) (by decide) (by decide)

/-- Counterexample for C5 as stated: the code's poll loop (`firstListen`)
does not check process liveness at each iteration.  With a process that is
alive only at the single pre-loop check (`aliveCE`) and a port that starts
accepting at attempt 5 (`portCE`), the code's loop succeeds at attempt 5,
while the loop the claim describes (`claimPoll`, checking both conditions
each iteration) never succeeds. -/
theorem C5_counterexample :
    firstListen portCE = some 5 ∧ aliveCE 5 = false ∧
    claimPoll aliveCE portCE = none := by
  decide

/-- C6: on every failure path of `start_tunnel` the registry is unchanged
(the tunnel is never registered); on the port-timeout path the spawned
process is killed; and the process-died and poll-exhaustion conditions do
produce exactly those failures. -/
theorem C6_start_tunnel_failure_frame (w : StartWorld) (reg : Registry)
    (project zone inst : List Char) (rp : Nat) :
    (∀ e, (start_tunnel w reg project zone inst rp).result = .error e →
      (start_tunnel w reg project zone inst rp).registry = reg) ∧
    ((start_tunnel w reg project zone inst rp).result = .error .portTimeout →
      (start_tunnel w reg project zone inst rp).killedSpawned = true) ∧
    (validate_project_id project = .ok () → validate_zone zone = .ok () →
      validate_instance_name inst = .ok () →
      lookupT reg (make_tunnel_key inst rp) = none → w.spawnOk = true →
      w.aliveAfterInit = false →
      start_tunnel w reg project zone inst rp =
        ⟨.error .processDied, reg, true, false⟩) ∧
    (validate_project_id project = .ok () → validate_zone zone = .ok () →
      validate_instance_name inst = .ok () →
      lookupT reg (make_tunnel_key inst rp) = none → w.spawnOk = true →
      w.aliveAfterInit = true → firstListen w.portListening = none →
      start_tunnel w reg project zone inst rp =
        ⟨.error .portTimeout, reg, true, true⟩) := by
  refine ⟨?_, ?_, ?_, ?_⟩
  · intro e he
    rcases start_tunnel_shape w reg project zone inst rp with
      ⟨e2, hsh⟩ | ⟨t, hl, hsh⟩ | hsh | hsh | hsh | hsh <;>
      rw [hsh] at he ⊢
    all_goals simp at he
  · intro he
    rcases start_tunnel_shape w reg project zone inst rp with
      ⟨e2, hsh⟩ | ⟨t, hl, hsh⟩ | hsh | hsh | hsh | hsh <;>
      rw [hsh] at he ⊢
    all_goals first | rfl | simp at he
  · intro hp hz hi habs hs ha
    rw [start_tunnel_eq_after_checks w reg project zone inst rp hp hz hi]
    unfold start_after_checks
    rw [habs, if_pos hs, if_neg (by rw [ha]; exact Bool.false_ne_true)]
  · intro hp hz hi habs hs ha hfl
    rw [start_tunnel_eq_after_checks w reg project zone inst rp hp hz hi]
    unfold start_after_checks
    rw [habs, if_pos hs, if_pos ha, hfl]

/-- Witness for C6: in world `wC6` the process dies during initialization;
the call fails with the process-died error and the registry stays empty. -/
theorem C6_witness :
    start_tunnel wC6 [] ['d', 'e', 'm', 'o', '-', 'p', 'r', 'o', 'j']
        ['u', 's', '-', 'c', 'e', 'n', 't', 'r', 'a', 'l', '1', '-', 'a']
        ['v', 'm', '-', 'a'] 22 =
      ⟨.error .processDied, [], true, false⟩ ∧
    (start_tunnel wC6 [] ['d', 'e', 'm', 'o', '-', 'p', 'r', 'o', 'j']
        ['u', 's', '-', 'c', 'e', 'n', 't', 'r', 'a', 'l', '1', '-', 'a']
        ['v', 'm', '-', 'a'] 22).registry = [] :=
  ⟨(C6_start_tunnel_failure_frame wC6 []
      ['d', 'e', 'm', 'o', '-', 'p', 'r', 'o', 'j']
      ['u', 's', '-', 'c', 'e', 'n', 't', 'r', 'a', 'l', '1', '-', 'a']
      ['v', 'm', '-', 'a'] 22).2.2.1 (by decide) (by decide) (by decide)
      (by decide) (by decide) (by decide),
    (C6_start_tunnel_failure_frame wC6 []
      ['d', 'e', 'm', 'o', '-', 'p', 'r', 'o', 'j']
      ['u', 's', '-', 'c', 'e', 'n', 't', 'r', 'a', 'l', '1', '-', 'a']
      ['v', 'm', '-', 'a'] 22).1 .processDied (by decide)⟩

/-- C9: `check_tunnel_health` errors on an absent key and, on a present
key, returns exactly `is_process_alive && is_port_listening`, in both
cases returning the registry unchanged — the entry is neither removed nor
replaced. -/
theorem C9_check_tunnel_health_frame (w : HealthWorld) (reg : Registry)
    (inst : List Char) (rp : Nat) :
    (lookupT reg (make_tunnel_key inst rp) = none →
      check_tunnel_health w reg inst rp = (.error .noSuchTunnel, reg)) ∧
    (∀ t, lookupT reg (make_tunnel_key inst rp) = some t →
      check_tunnel_health w reg inst rp = (.ok (w.alive && w.portL), reg)) := by
  constructor
  · intro h
    simp [check_tunnel_health, h]
  · intro t h
    simp [check_tunnel_health, h, is_healthy]

/-- Witness for C9: on the empty registry the health check errors; on a
registry holding `vm-a:22` whose process has been killed externally
(`alive = false`, port still listening) it returns `Ok(false)` and the
registry is untouched. -/
theorem C9_witness :
    check_tunnel_health ⟨false, true⟩ [] ['v', 'm', '-', 'a'] 22 =
      (.error .noSuchTunnel, []) ∧
    check_tunnel_health ⟨false, true⟩ regC9 ['v', 'm', '-', 'a'] 22 =
      (.ok (false && true), regC9) :=
  ⟨(C9_check_tunnel_health_frame ⟨false, true⟩ [] ['v', 'm', '-', 'a'] 22).1
      (by decide),
    (C9_check_tunnel_health_frame ⟨false, true⟩ regC9
      ['v', 'm', '-', 'a'] 22).2 ⟨4321⟩ (by decide)⟩

/-- C10: for any key absent from the registry, `stop_tunnel` returns
`Ok(())`, leaves the registry unchanged and kills nothing — and since it
performs no identifier validation, this holds for every instance string,
including ones `start_tunnel` would reject. -/
theorem C10_stop_tunnel_absent_noop (reg : Registry) (inst : List Char)
    (rp : Nat) (h : lookupT reg (make_tunnel_key inst rp) = none) :
    stop_tunnel reg inst rp = (.ok (), reg, false) := by
  simp [stop_tunnel, h]

/-- Witness for C10: `"VM;"` is an instance string `start_tunnel` would
reject as invalid, yet `stop_tunnel` on the empty registry still returns
`Ok(())` and changes nothing. -/
theorem C10_witness :
    validate_instance_name ['V', 'M', ';'] = .error .invalidFormat ∧
    stop_tunnel [] ['V', 'M', ';'] 22 = (.ok (), [], false) :=
  ⟨by decide, C10_stop_tunnel_absent_noop [] ['V', 'M', ';'] 22 (by decide)⟩
